import Mathlib

/-!
Shallow embedding of the oxc lint rule `no_negation_in_equality_check`
(crates/oxc_linter/src/rules/unicorn/no_negation_in_equality_check.rs)
together with the small pieces of `oxc_syntax` and `oxc_diagnostics`
that the rule reads.
-/

/-- Source byte range, from `oxc_span::Span` (fields `start` and `end`;
`end` is renamed `end_` because it is a Lean keyword). -/
structure Span where
  start : Nat
  end_ : Nat
deriving DecidableEq, Repr

/-- Unary operators of `oxc_syntax::operator::UnaryOperator`. -/
inductive UnaryOperator where
  | Minus
  | Plus
  | LogicalNot
  | BitwiseNot
  | Typeof
  | Void
  | Delete
deriving DecidableEq, Repr

/-- Binary operators of `oxc_syntax::operator::BinaryOperator`. -/
inductive BinaryOperator where
  | Equality
  | Inequality
  | StrictEquality
  | StrictInequality
  | LessThan
  | LessEqualThan
  | GreaterThan
  | GreaterEqualThan
  | ShiftLeft
  | ShiftRight
  | ShiftRightZeroFill
  | Addition
  | Subtraction
  | Multiplication
  | Division
  | Remainder
  | BitwiseOR
  | BitwiseXOR
  | BitwiseAnd
  | In
  | Instanceof
  | Exponential
deriving DecidableEq, Repr

/-- Modelled from the spec: `BinaryOperator::is_equality` lives in
`oxc_syntax`, which is not under src/. The spec defines the equality
family as the four operators expressing equal or not-equal under strict
or loose comparison semantics. -/
def BinaryOperator.is_equality : BinaryOperator → Bool
  | .Equality => true
  | .Inequality => true
  | .StrictEquality => true
  | .StrictInequality => true
  | _ => false

/-- Modelled from the spec: `BinaryOperator::equality_inverse_operator`
lives in `oxc_syntax`, which is not under src/. The spec describes it as
a closed lookup mapping each equality-family operator to its logical
complement within the same strictness, and `none` otherwise. -/
def BinaryOperator.equality_inverse_operator : BinaryOperator → Option BinaryOperator
  | .Equality => some .Inequality
  | .Inequality => some .Equality
  | .StrictEquality => some .StrictInequality
  | .StrictInequality => some .StrictEquality
  | _ => none

/-- Modelled from the spec: `BinaryOperator::as_str` lives in
`oxc_syntax`, which is not under src/. It returns the concrete source
token of the operator, used by the diagnostic help text. -/
def BinaryOperator.as_str : BinaryOperator → String
  | .Equality => "=="
  | .Inequality => "!="
  | .StrictEquality => "==="
  | .StrictInequality => "!=="
  | .LessThan => "<"
  | .LessEqualThan => "<="
  | .GreaterThan => ">"
  | .GreaterEqualThan => ">="
  | .ShiftLeft => "<<"
  | .ShiftRight => ">>"
  | .ShiftRightZeroFill => ">>>"
  | .Addition => "+"
  | .Subtraction => "-"
  | .Multiplication => "*"
  | .Division => "/"
  | .Remainder => "%"
  | .BitwiseOR => "|"
  | .BitwiseXOR => "^"
  | .BitwiseAnd => "&"
  | .In => "in"
  | .Instanceof => "instanceof"
  | .Exponential => "**"

/-- Expressions, abstracting `oxc_ast::ast::Expression`. The rule only
distinguishes the `UnaryExpression` variant (with its `operator` and
`argument` fields) from every other variant; `Identifier` stands for a
concrete non-unary expression and `OtherExpression` collapses the
remaining variants. -/
inductive Expression where
  | UnaryExpression (operator : UnaryOperator) (argument : Expression) (span : Span)
  | Identifier (name : String) (span : Span)
  | OtherExpression (span : Span)
deriving DecidableEq, Repr

/-- The `oxc_ast::ast::BinaryExpression` struct: span, left operand,
operator, right operand. -/
structure BinaryExpression where
  span : Span
  left : Expression
  operator : BinaryOperator
  right : Expression
deriving DecidableEq, Repr

/-- The node kinds visited by the traversal, abstracting
`oxc_ast::AstKind`: the rule matches `BinaryExpression` and treats every
other kind uniformly. -/
inductive AstKind where
  | BinaryExpression (e : BinaryExpression)
  | OtherKind
deriving DecidableEq, Repr

/-- Diagnostic severity, from `oxc_diagnostics::Severity`. -/
inductive Severity where
  | Advice
  | Warning
  | Error
deriving DecidableEq, Repr

/-- The parts of `oxc_diagnostics::OxcDiagnostic` the rule produces:
message, optional help text, severity, and labelled spans. -/
structure OxcDiagnostic where
  message : String
  help : Option String
  severity : Severity
  labels : List Span
deriving DecidableEq, Repr

/-- Constructor `OxcDiagnostic::warn`: a warning with the given message
and no help or labels yet. -/
def OxcDiagnostic.warn (message : String) : OxcDiagnostic :=
  { message := message, help := none, severity := Severity.Warning, labels := [] }

/-- Builder `OxcDiagnostic::with_help`. -/
def OxcDiagnostic.with_help (d : OxcDiagnostic) (h : String) : OxcDiagnostic :=
  { d with help := some h }

/-- Builder `OxcDiagnostic::with_label`. -/
def OxcDiagnostic.with_label (d : OxcDiagnostic) (s : Span) : OxcDiagnostic :=
  { d with labels := d.labels ++ [s] }

/-- The rule's fixed diagnostic message. -/
def negationMessage : String :=
  "eslint-plugin-unicorn(no-negation-in-equality-check): Negated expression is not allowed in equality check."

/-- The function `no_negation_in_equality_check_diagnostic` of the rule:
a warning over `span0` whose help names the suggested operator. -/
def no_negation_in_equality_check_diagnostic
    (span0 : Span) (suggested_operator : BinaryOperator) : OxcDiagnostic :=
  (OxcDiagnostic.warn negationMessage).with_help
    ("Remove the negation operator and use \x27" ++ suggested_operator.as_str ++ "\x27 instead.")
    |>.with_label span0

/-- The body of `NoNegationInEqualityCheck::run`, with `ctx.diagnostic`
emissions collected into the returned list: each early `return` of the
Rust code becomes the empty list. -/
def NoNegationInEqualityCheck.run (node : AstKind) : List OxcDiagnostic :=
  match node with
  | AstKind.BinaryExpression binary_expr =>
    match binary_expr.left with
    | Expression.UnaryExpression left_unary_op left_unary_arg _ =>
      if left_unary_op ≠ UnaryOperator.LogicalNot then
        []
      else if (match left_unary_arg with
               | Expression.UnaryExpression left_nested_op _ _ =>
                 decide (left_nested_op = UnaryOperator.LogicalNot)
               | _ => false) then
        []
      else if ¬ binary_expr.operator.is_equality then
        []
      else
        match binary_expr.operator.equality_inverse_operator with
        | none => []
        | some suggested_operator =>
          [no_negation_in_equality_check_diagnostic binary_expr.span suggested_operator]
    | _ => []
  | AstKind.OtherKind => []

/-- Definition following the spec's words, for comparison with the
modelled operator table: `inv` is the exact logical inverse of `op`,
that is, its complement within the equality family under the same
strictness. -/
def logicalInverseSpec : BinaryOperator → BinaryOperator → Bool
  | .Equality, .Inequality => true
  | .Inequality, .Equality => true
  | .StrictEquality, .StrictInequality => true
  | .StrictInequality, .StrictEquality => true
  | _, _ => false

/-- Sample identifier `foo`. -/
def fooExpr : Expression := Expression.Identifier "foo" ⟨1, 4⟩

/-- Sample identifier `bar`. -/
def barExpr : Expression := Expression.Identifier "bar" ⟨8, 11⟩

/-- Sample expression for the source text `!foo`. -/
def notFoo : Expression := Expression.UnaryExpression UnaryOperator.LogicalNot fooExpr ⟨0, 4⟩

/-- Sample expression for the source text `!!foo`. -/
def notNotFoo : Expression := Expression.UnaryExpression UnaryOperator.LogicalNot notFoo ⟨0, 5⟩

/-- Sample expression for the source text `+foo`. -/
def plusFoo : Expression := Expression.UnaryExpression UnaryOperator.Plus fooExpr ⟨0, 4⟩

/-- Sample expression for the source text `!bar`. -/
def notBar : Expression := Expression.UnaryExpression UnaryOperator.LogicalNot barExpr ⟨7, 11⟩

/-- Sample comparison `!foo op bar` with a chosen operator. -/
def negLeftCmp (op : BinaryOperator) : BinaryExpression :=
  { span := ⟨0, 11⟩, left := notFoo, operator := op, right := barExpr }

/-- C2: the inverse-operator computation maps each equality-family
operator to its logical complement within the same strictness
(strict-equal to strict-not-equal and back, loose-equal to
loose-not-equal and back), and on the concrete scenarios
`!foo === bar`, `!foo !== bar`, `!foo == bar` the rule emits one
diagnostic suggesting `!==`, `===`, `!=` respectively. -/
theorem equality_inverse_operator_is_logical_complement :
    (∀ op inv : BinaryOperator,
      op.equality_inverse_operator = some inv → logicalInverseSpec op inv = true)
    ∧ BinaryOperator.StrictEquality.equality_inverse_operator = some BinaryOperator.StrictInequality
    ∧ BinaryOperator.StrictInequality.equality_inverse_operator = some BinaryOperator.StrictEquality
    ∧ BinaryOperator.Equality.equality_inverse_operator = some BinaryOperator.Inequality
    ∧ BinaryOperator.Inequality.equality_inverse_operator = some BinaryOperator.Equality
    ∧ NoNegationInEqualityCheck.run (AstKind.BinaryExpression (negLeftCmp BinaryOperator.StrictEquality))
        = [no_negation_in_equality_check_diagnostic ⟨0, 11⟩ BinaryOperator.StrictInequality]
    ∧ NoNegationInEqualityCheck.run (AstKind.BinaryExpression (negLeftCmp BinaryOperator.StrictInequality))
        = [no_negation_in_equality_check_diagnostic ⟨0, 11⟩ BinaryOperator.StrictEquality]
    ∧ NoNegationInEqualityCheck.run (AstKind.BinaryExpression (negLeftCmp BinaryOperator.Equality))
        = [no_negation_in_equality_check_diagnostic ⟨0, 11⟩ BinaryOperator.Inequality]
    ∧ (BinaryOperator.StrictEquality.as_str = "===" ∧ BinaryOperator.StrictInequality.as_str = "!=="
       ∧ BinaryOperator.Equality.as_str = "==" ∧ BinaryOperator.Inequality.as_str = "!=") := by
  refine ⟨?_, rfl, rfl, rfl, rfl, rfl, rfl, rfl, rfl, rfl, rfl, rfl⟩
  intro op inv h
  cases op <;> simp_all [BinaryOperator.equality_inverse_operator] <;> subst h <;> rfl

/-- C3: a comparison whose left operand is not a logical-not unary
expression (a unary plus, or no unary expression at all) yields no
diagnostic. -/
theorem run_left_not_negation_no_diagnostic (b : BinaryExpression)
    (h : ∀ op arg sp, b.left = Expression.UnaryExpression op arg sp →
          op ≠ UnaryOperator.LogicalNot) :
    NoNegationInEqualityCheck.run (AstKind.BinaryExpression b) = [] := by
  obtain ⟨bsp, bleft, bop, bright⟩ := b
  cases bleft with
  | UnaryExpression op arg sp =>
    have hop : op ≠ UnaryOperator.LogicalNot := h op arg sp rfl
    simp [NoNegationInEqualityCheck.run, hop]
  | Identifier n s => rfl
  | OtherExpression s => rfl

/-- Witness for C3: the comparison `+foo === bar` gets no diagnostic. -/
theorem run_left_not_negation_no_diagnostic_witness :
    NoNegationInEqualityCheck.run (AstKind.BinaryExpression
      { span := ⟨0, 11⟩, left := plusFoo, operator := BinaryOperator.StrictEquality,
        right := barExpr }) = [] :=
  run_left_not_negation_no_diagnostic _
    (fun op arg sp h => by
      simp only [plusFoo, Expression.UnaryExpression.injEq] at h
      obtain ⟨h1, -, -⟩ := h
      subst h1
      decide)

/-- C4: a comparison whose left operand is a logical-not whose argument
is itself a logical-not (double negation, hence also any deeper chain)
yields no diagnostic. -/
theorem run_double_negation_no_diagnostic (b : BinaryExpression)
    (narg : Expression) (sp nsp : Span)
    (hleft : b.left = Expression.UnaryExpression UnaryOperator.LogicalNot
                (Expression.UnaryExpression UnaryOperator.LogicalNot narg nsp) sp) :
    NoNegationInEqualityCheck.run (AstKind.BinaryExpression b) = [] := by
  obtain ⟨bsp, bleft, bop, bright⟩ := b
  simp only at hleft
  subst hleft
  simp [NoNegationInEqualityCheck.run]

/-- Witness for C4: the comparison `!!foo === bar` gets no diagnostic. -/
theorem run_double_negation_no_diagnostic_witness :
    NoNegationInEqualityCheck.run (AstKind.BinaryExpression
      { span := ⟨0, 12⟩, left := notNotFoo, operator := BinaryOperator.StrictEquality,
        right := barExpr }) = [] :=
  run_double_negation_no_diagnostic _ fooExpr ⟨0, 5⟩ ⟨0, 4⟩ rfl

/-- C1: an equality-family comparison whose left operand is exactly one
logical-not whose argument is not itself a logical-not yields exactly
one diagnostic, and the suggested operator carried in it is the exact
logical inverse of the comparison operator. -/
theorem run_single_negation_flagged (b : BinaryExpression) (arg : Expression) (sp : Span)
    (hleft : b.left = Expression.UnaryExpression UnaryOperator.LogicalNot arg sp)
    (harg : ∀ nop narg nsp, arg = Expression.UnaryExpression nop narg nsp →
              nop ≠ UnaryOperator.LogicalNot)
    (heq : b.operator.is_equality = true) :
    ∃ inv, b.operator.equality_inverse_operator = some inv
      ∧ logicalInverseSpec b.operator inv = true
      ∧ NoNegationInEqualityCheck.run (AstKind.BinaryExpression b)
          = [no_negation_in_equality_check_diagnostic b.span inv] := by
  obtain ⟨bsp, bleft, bop, bright⟩ := b
  simp only at hleft heq ⊢
  subst hleft
  have hex : ∃ inv, bop.equality_inverse_operator = some inv
      ∧ logicalInverseSpec bop inv = true := by
    cases bop <;> first
      | exact ⟨_, rfl, rfl⟩
      | exact absurd heq (by decide)
  obtain ⟨inv, hinv, hspec⟩ := hex
  refine ⟨inv, hinv, hspec, ?_⟩
  cases arg with
  | UnaryExpression nop narg nsp =>
    have hnop : nop ≠ UnaryOperator.LogicalNot := harg nop narg nsp rfl
    simp [NoNegationInEqualityCheck.run, hnop, heq, hinv]
  | Identifier n s => simp [NoNegationInEqualityCheck.run, heq, hinv]
  | OtherExpression s => simp [NoNegationInEqualityCheck.run, heq, hinv]

/-- Witness for C1: the comparison `!foo === bar` gets exactly the
diagnostic suggesting the strict inequality operator. -/
theorem run_single_negation_flagged_witness :
    ∃ inv, (negLeftCmp BinaryOperator.StrictEquality).operator.equality_inverse_operator = some inv
      ∧ logicalInverseSpec (negLeftCmp BinaryOperator.StrictEquality).operator inv = true
      ∧ NoNegationInEqualityCheck.run (AstKind.BinaryExpression (negLeftCmp BinaryOperator.StrictEquality))
          = [no_negation_in_equality_check_diagnostic (negLeftCmp BinaryOperator.StrictEquality).span inv] :=
  run_single_negation_flagged (negLeftCmp BinaryOperator.StrictEquality) fooExpr ⟨0, 4⟩ rfl
    (fun nop narg nsp h => by simp [fooExpr] at h) rfl

/-- C5: a comparison whose operator is outside the equality family
yields no diagnostic, whatever the shape of the left operand. -/
theorem run_non_equality_no_diagnostic (b : BinaryExpression)
    (h : b.operator ≠ BinaryOperator.Equality
       ∧ b.operator ≠ BinaryOperator.Inequality
       ∧ b.operator ≠ BinaryOperator.StrictEquality
       ∧ b.operator ≠ BinaryOperator.StrictInequality) :
    NoNegationInEqualityCheck.run (AstKind.BinaryExpression b) = [] := by
  obtain ⟨bsp, bleft, bop, bright⟩ := b
  simp only at h
  have hne : bop.is_equality = false := by
    cases bop <;> simp_all [BinaryOperator.is_equality]
  cases bleft with
  | UnaryExpression op arg sp =>
    by_cases hop : op = UnaryOperator.LogicalNot
    · subst hop
      cases arg with
      | UnaryExpression nop narg nsp =>
        by_cases hnop : nop = UnaryOperator.LogicalNot
        · subst hnop
          simp [NoNegationInEqualityCheck.run]
        · simp [NoNegationInEqualityCheck.run, hnop, hne]
      | Identifier n s => simp [NoNegationInEqualityCheck.run, hne]
      | OtherExpression s => simp [NoNegationInEqualityCheck.run, hne]
    · simp [NoNegationInEqualityCheck.run, hop]
  | Identifier n s => rfl
  | OtherExpression s => rfl

/-- Witness for C5: the comparison `!foo instanceof bar` gets no
diagnostic even though its left operand is a single negation. -/
theorem run_non_equality_no_diagnostic_witness :
    NoNegationInEqualityCheck.run (AstKind.BinaryExpression (negLeftCmp BinaryOperator.Instanceof)) = [] :=
  run_non_equality_no_diagnostic (negLeftCmp BinaryOperator.Instanceof)
    (by refine ⟨?_, ?_, ?_, ?_⟩ <;> decide)

/-- C10: whenever the equality-family test passes, the inverse-operator
lookup succeeds, so the defensive branch returning no diagnostic for a
missing inverse is unreachable. -/
theorem is_equality_implies_inverse_exists (op : BinaryOperator)
    (h : op.is_equality = true) :
    ∃ inv, op.equality_inverse_operator = some inv := by
  cases op <;> first
    | exact ⟨_, rfl⟩
    | exact absurd h (by decide)

/-- Witness for C10: the loose-equality operator passes the family test
and has an inverse. -/
theorem is_equality_implies_inverse_exists_witness :
    ∃ inv, BinaryOperator.Equality.equality_inverse_operator = some inv :=
  is_equality_implies_inverse_exists BinaryOperator.Equality rfl

/-- C6: every emitted diagnostic labels the span of the full binary
comparison node, has warning severity, carries the fixed message, and
its help text names the suggested inverse operator. -/
theorem run_diagnostic_shape (node : AstKind) (d : OxcDiagnostic)
    (hd : d ∈ NoNegationInEqualityCheck.run node) :
    ∃ b inv, node = AstKind.BinaryExpression b
      ∧ b.operator.equality_inverse_operator = some inv
      ∧ d.labels = [b.span]
      ∧ d.severity = Severity.Warning
      ∧ d.message = negationMessage
      ∧ d.help = some ("Remove the negation operator and use \x27" ++ inv.as_str ++ "\x27 instead.") := by
  cases node with
  | OtherKind => exact absurd hd (List.not_mem_nil d)
  | BinaryExpression b =>
    obtain ⟨bsp, bleft, bop, bright⟩ := b
    simp only [NoNegationInEqualityCheck.run] at hd
    repeat' split at hd
    all_goals try exact absurd hd (List.not_mem_nil d)
    rename_i suggested hinv
    rw [List.mem_singleton] at hd
    subst hd
    exact ⟨_, suggested, rfl, hinv, rfl, rfl, rfl, rfl⟩

/-- Witness for C6: the diagnostic emitted for `!foo === bar` has the
claimed span, severity, message and help shape. -/
theorem run_diagnostic_shape_witness :
    ∃ b inv, AstKind.BinaryExpression (negLeftCmp BinaryOperator.StrictEquality)
        = AstKind.BinaryExpression b
      ∧ b.operator.equality_inverse_operator = some inv
      ∧ (no_negation_in_equality_check_diagnostic ⟨0, 11⟩ BinaryOperator.StrictInequality).labels = [b.span]
      ∧ (no_negation_in_equality_check_diagnostic ⟨0, 11⟩ BinaryOperator.StrictInequality).severity = Severity.Warning
      ∧ (no_negation_in_equality_check_diagnostic ⟨0, 11⟩ BinaryOperator.StrictInequality).message = negationMessage
      ∧ (no_negation_in_equality_check_diagnostic ⟨0, 11⟩ BinaryOperator.StrictInequality).help
          = some ("Remove the negation operator and use \x27" ++ inv.as_str ++ "\x27 instead.") :=
  run_diagnostic_shape (AstKind.BinaryExpression (negLeftCmp BinaryOperator.StrictEquality))
    (no_negation_in_equality_check_diagnostic ⟨0, 11⟩ BinaryOperator.StrictInequality)
    (by decide)

/-- C7: on every input node the rule terminates in one of exactly two
outcomes, no diagnostic or exactly one diagnostic; it is a total
function, so no tree shape raises an error. -/
theorem run_zero_or_one_diagnostic (node : AstKind) :
    NoNegationInEqualityCheck.run node = []
    ∨ ∃ d, NoNegationInEqualityCheck.run node = [d] := by
  cases node with
  | OtherKind => exact Or.inl rfl
  | BinaryExpression b =>
    obtain ⟨bsp, bleft, bop, bright⟩ := b
    simp only [NoNegationInEqualityCheck.run]
    repeat' split
    all_goals first
      | exact Or.inl rfl
      | exact Or.inr ⟨_, rfl⟩

/-- C8: the rule is deterministic and stateless; invoked twice on the
same immutable node it produces identical results, and as a pure
function over the node value it cannot mutate the tree. -/
theorem run_deterministic (n1 n2 : AstKind) (h : n1 = n2) :
    NoNegationInEqualityCheck.run n1 = NoNegationInEqualityCheck.run n2 := by
  rw [h]

/-- Witness for C8: two runs on the node for `!foo === bar` agree. -/
theorem run_deterministic_witness :
    NoNegationInEqualityCheck.run (AstKind.BinaryExpression (negLeftCmp BinaryOperator.StrictEquality))
      = NoNegationInEqualityCheck.run (AstKind.BinaryExpression (negLeftCmp BinaryOperator.StrictEquality)) :=
  run_deterministic (AstKind.BinaryExpression (negLeftCmp BinaryOperator.StrictEquality))
    (AstKind.BinaryExpression (negLeftCmp BinaryOperator.StrictEquality)) rfl

/-- C9: the result never depends on the right operand; two comparisons
agreeing on span, left operand and operator give identical results
whatever their right operands, and a negation only on the right, as in
`foo === !bar`, is never flagged. -/
theorem run_ignores_right_operand :
    (∀ (sp : Span) (l : Expression) (op : BinaryOperator) (r1 r2 : Expression),
      NoNegationInEqualityCheck.run (AstKind.BinaryExpression ⟨sp, l, op, r1⟩)
        = NoNegationInEqualityCheck.run (AstKind.BinaryExpression ⟨sp, l, op, r2⟩))
    ∧ NoNegationInEqualityCheck.run (AstKind.BinaryExpression
        ⟨⟨0, 11⟩, fooExpr, BinaryOperator.StrictEquality, notBar⟩) = [] :=
  ⟨fun _ _ _ _ _ => rfl, rfl⟩
